import Mathlib

/-!
Verification of the flat-file task store implemented in `src/tasakman.cpp`.

The store file is modelled as a list of lines, each line a `List Char`
exactly as `fgets` delivers it (the trailing newline, when present, is part
of the line).  A missing file is modelled by `Option`: `none` is "the file
does not exist".  The two `sscanf` patterns of the program are embedded
character by character:

* `sscanf(line, "%d,", &id) == 1` succeeds exactly when `%d` converts, i.e.
  when the line starts (after optional whitespace) with an optional sign and
  at least one decimal digit; the trailing literal `,` cannot lower the
  return value below 1 once `%d` has been assigned (modelled by `scanId`).
* `sscanf(line, "%d,%d,%[^\n]", ...) == 3` additionally requires a literal
  comma, a second integer, another literal comma and a nonempty run of
  non-newline characters (modelled by `parse3`).

`fprintf(f, "%d,%d,%s\n", id, s, d)` is modelled by `canonLine`, built from
the decimal rendering of the integers (`intChars`).  The model abstracts
from the fixed C buffer sizes (lines and descriptions are unbounded) and
from I/O failures; the temporary-file dance of the rewrite operations is
modelled by its net effect on the file's content.
-/

namespace Tasakman

/-- One line of the store file, as read by `fgets` (newline included). -/
abbrev Line := List Char

/-- The content of an existing store file: its lines in order. -/
abbrev FileContent := List Line

/-- The store file on disk; `none` means the file does not exist. -/
abbrev Store := Option FileContent

/-- Whitespace as `%d` skips it (C `isspace`): space, \t, \n, \v, \f, \r. -/
def isWs (c : Char) : Bool :=
  c.toNat = 32 || c.toNat = 9 || c.toNat = 10 || c.toNat = 11 ||
    c.toNat = 12 || c.toNat = 13

/-- Decimal digit as `%d` accepts it (C `isdigit`): codes 48 to 57. -/
def isDigitChar (c : Char) : Bool :=
  48 ≤ c.toNat && c.toNat ≤ 57

/-- Numeric value of a digit character. -/
def charVal (c : Char) : Nat := c.toNat - 48

/-- Accumulate the value of a run of digit characters, most significant
first, as `%d` does. -/
def valAux : Nat → List Char → Nat
  | a, [] => a
  | a, c :: cs => valAux (a * 10 + charVal c) cs

/-- The maximal run of leading decimal digits: its value and the rest of the
input.  Fails when there is no leading digit (a `%d` matching failure). -/
def parseDigits (l : List Char) : Option (Nat × List Char) :=
  if (l.takeWhile isDigitChar).isEmpty then none
  else some (valAux 0 (l.takeWhile isDigitChar), l.dropWhile isDigitChar)

/-- The `%d` conversion after its whitespace skipping: an optional sign,
then at least one digit. -/
def parseIntCore : List Char → Option (Int × List Char)
  | [] => none
  | c :: r =>
    if c = '-' then
      match parseDigits r with
      | some (n, r1) => some (-(n : Int), r1)
      | none => none
    else if c = '+' then
      match parseDigits r with
      | some (n, r1) => some ((n : Int), r1)
      | none => none
    else
      match parseDigits (c :: r) with
      | some (n, r1) => some ((n : Int), r1)
      | none => none

/-- The `%d` conversion: skip whitespace, an optional sign, then at least
one digit.  Returns the converted integer and the unconsumed input. -/
def parseInt (l : List Char) : Option (Int × List Char) :=
  parseIntCore (l.dropWhile isWs)

/-- Outcome of `sscanf(line, "%d,", &id) == 1`: the leading integer of the
line, when there is one.  (The literal comma of the format cannot fail the
comparison with 1, since `%d` has already been assigned.) -/
def scanId (l : Line) : Option Int :=
  match parseInt l with
  | some (id, _) => some id
  | none => none

/-- Outcome of `sscanf(line, "%d,%d,%[^\n]", &id, &status, desc) == 3`: a
well-formed record `(id, status, description)`.  The description is the
nonempty run of characters after the second comma up to (not including) the
newline; `%[^\n]` fails on an empty run. -/
def parse3 (l : Line) : Option (Int × Int × Line) :=
  match parseInt l with
  | none => none
  | some (id, r1) =>
    match r1 with
    | ',' :: r2 =>
      match parseInt r2 with
      | none => none
      | some (st, r3) =>
        match r3 with
        | ',' :: r4 =>
          if (r4.takeWhile (fun c => !(c == '\n'))).isEmpty then none
          else some (id, st, r4.takeWhile (fun c => !(c == '\n')))
        | _ => none
    | _ => none

/-- The character of a decimal digit value below 10. -/
def digitChar : Nat → Char
  | 0 => '0'
  | 1 => '1'
  | 2 => '2'
  | 3 => '3'
  | 4 => '4'
  | 5 => '5'
  | 6 => '6'
  | 7 => '7'
  | 8 => '8'
  | _ => '9'

/-- Decimal digits of a natural number, most significant first; structural
in an explicit fuel argument so that concrete instances compute in the
kernel.  Returns `[]` when the number is 0 or the fuel runs out. -/
def natCharsAux : Nat → Nat → List Char
  | 0, _ => []
  | fuel + 1, n =>
    if n = 0 then [] else natCharsAux fuel (n / 10) ++ [digitChar (n % 10)]

/-- Decimal rendering of a natural number, as `printf("%d")` writes it. -/
def natChars (n : Nat) : List Char :=
  if n = 0 then ['0'] else natCharsAux n n

/-- Decimal rendering of an integer, as `printf("%d")` writes it. -/
def intChars (i : Int) : List Char :=
  if i < 0 then '-' :: natChars i.natAbs else natChars i.natAbs

/-- A line as `fprintf(f, "%d,%d,%s\n", id, st, d)` writes it. -/
def canonLine (id st : Int) (d : Line) : Line :=
  intChars id ++ ',' :: (intChars st ++ ',' :: (d ++ ['\n']))

/-- The line `"id,status,\n"` with an empty description field. -/
def emptyDescLine (id st : Int) : Line :=
  intChars id ++ ',' :: (intChars st ++ [',', '\n'])

/-- The content an operation sees after `fopen`: an absent file reads as
empty (and `fopen(..., "a")` creates it empty). -/
def contentOf (store : Store) : FileContent :=
  match store with
  | none => []
  | some ls => ls

/-- The scan loop of `getNextTaskId`: for every line whose leading integer
parses, raise the running maximum when the parsed id exceeds it. -/
def maxIdScan : FileContent → Int → Int
  | [], m => m
  | l :: ls, m =>
    match scanId l with
    | some id => maxIdScan ls (if m < id then id else m)
    | none => maxIdScan ls m

/-- Embedding of `getNextTaskId()`: 1 when the file does not exist,
otherwise the scan maximum (started at 0) plus 1. -/
def getNextTaskId : Store → Int
  | none => 1
  | some ls => maxIdScan ls 0 + 1

/-- Embedding of `addTask(description)`: the file is opened for append
(created empty when absent), the next id computed from it, and the line
`"id,0,description\n"` appended. -/
def addTask (store : Store) (description : Line) : Store :=
  some (contentOf store ++
    [canonLine (getNextTaskId (some (contentOf store))) 0 description])

/-- The read loop of `listTasks`: every well-formed line yields its record,
in file order; other lines yield nothing. -/
def listRecords : FileContent → List (Int × Int × Line)
  | [] => []
  | l :: ls =>
    match parse3 l with
    | some r => r :: listRecords ls
    | none => listRecords ls

/-- Embedding of `listTasks()`: the records printed, in order.  An absent
file prints no record (the program reports "no tasks found"). -/
def listTasks (store : Store) : List (Int × Int × Line) :=
  match store with
  | none => []
  | some ls => listRecords ls

/-- What `listTasks` shows for each record: the id, whether the status text
is `[DONE]` (printed exactly when `status == 1`), and the description. -/
def listDisplay (store : Store) : List (Int × Bool × Line) :=
  (listTasks store).map (fun r => (r.1, r.2.1 == 1, r.2.2))

/-- The rewrite loop of `modifyTaskStatus`: a well-formed line whose id
equals `taskId` is written back as `"id,complete?1:0,description\n"` and
sets the found flag; every other line is copied unchanged. -/
def modifyLines (taskId : Int) (complete : Bool) : FileContent → FileContent × Bool
  | [] => ([], false)
  | l :: ls =>
    match parse3 l with
    | some (id, _st, d) =>
      if id = taskId then
        (canonLine id (if complete then 1 else 0) d :: (modifyLines taskId complete ls).1,
          true)
      else
        (l :: (modifyLines taskId complete ls).1, (modifyLines taskId complete ls).2)
    | none =>
      (l :: (modifyLines taskId complete ls).1, (modifyLines taskId complete ls).2)

/-- The per-line effect of the `modifyTaskStatus` loop. -/
def stepLine (taskId : Int) (complete : Bool) (l : Line) : Line :=
  match parse3 l with
  | some (id, _st, d) =>
    if id = taskId then canonLine id (if complete then 1 else 0) d else l
  | none => l

/-- Whether a line sets `taskFound` in the `modifyTaskStatus` loop. -/
def lineFound3 (taskId : Int) (l : Line) : Bool :=
  match parse3 l with
  | some (id, _st, _d) => id == taskId
  | none => false

/-- Embedding of `modifyTaskStatus(taskId, complete)`: `none` is returned
untouched (the function prints "No tasks found." and returns before any
rewrite); otherwise the rewritten content replaces the file and the found
flag is reported.  The temporary file and the remove/rename pair are
modelled by their net effect on the content. -/
def modifyTaskStatus (store : Store) (taskId : Int) (complete : Bool) :
    Store × Bool :=
  match store with
  | none => (none, false)
  | some ls => (some (modifyLines taskId complete ls).1, (modifyLines taskId complete ls).2)

/-- Whether a line sets `taskFound` in the `deleteTask` loop: the loop only
peeks at the leading integer (`sscanf(line, "%d,", &id)`). -/
def lineFoundLead (taskId : Int) (l : Line) : Bool :=
  match scanId l with
  | some id => id == taskId
  | none => false

/-- The rewrite loop of `deleteTask`: a line whose leading integer parses
and equals `taskId` is dropped and sets the found flag; every other line
(including every line without a parsable leading integer) is copied
unchanged. -/
def deleteLines (taskId : Int) : FileContent → FileContent × Bool
  | [] => ([], false)
  | l :: ls =>
    match scanId l with
    | some id =>
      if id = taskId then ((deleteLines taskId ls).1, true)
      else (l :: (deleteLines taskId ls).1, (deleteLines taskId ls).2)
    | none => (l :: (deleteLines taskId ls).1, (deleteLines taskId ls).2)

/-- Embedding of `deleteTask(taskId)`; the `none` case and the file
replacement are modelled as in `modifyTaskStatus`. -/
def deleteTask (store : Store) (taskId : Int) : Store × Bool :=
  match store with
  | none => (none, false)
  | some ls => (some (deleteLines taskId ls).1, (deleteLines taskId ls).2)

/-- The `done` command of `main`: exit code 1 on a non-positive id (before
touching the store), else `modifyTaskStatus(id, true)` and exit code 0. -/
def runDone (store : Store) (taskId : Int) : Store × Nat :=
  if taskId ≤ 0 then (store, 1) else ((modifyTaskStatus store taskId true).1, 0)

/-- The `pending` command of `main`: exit code 1 on a non-positive id, else
`modifyTaskStatus(id, false)` and exit code 0. -/
def runPending (store : Store) (taskId : Int) : Store × Nat :=
  if taskId ≤ 0 then (store, 1) else ((modifyTaskStatus store taskId false).1, 0)

/-- The `delete` command of `main`: exit code 1 on a non-positive id, else
`deleteTask(id)` and exit code 0. -/
def runDelete (store : Store) (taskId : Int) : Store × Nat :=
  if taskId ≤ 0 then (store, 1) else ((deleteTask store taskId).1, 0)

/-! ### Decimal rendering round-trips with the `%d` conversion -/

theorem charVal_digitChar {m : Nat} (h : m < 10) : charVal (digitChar m) = m := by
  interval_cases m <;> decide

theorem isDigitChar_digitChar {m : Nat} (h : m < 10) :
    isDigitChar (digitChar m) = true := by
  interval_cases m <;> decide

theorem not_isWs_of_isDigitChar {c : Char} (h : isDigitChar c = true) :
    isWs c = false := by
  simp only [isDigitChar, Bool.and_eq_true, decide_eq_true_eq] at h
  simp only [isWs]
  simp only [Bool.or_eq_false_iff, decide_eq_false_iff_not]
  omega

theorem ne_dash_of_isDigitChar {c : Char} (h : isDigitChar c = true) : ¬(c = '-') := by
  intro hc
  subst hc
  exact absurd h (by decide)

theorem ne_plus_of_isDigitChar {c : Char} (h : isDigitChar c = true) : ¬(c = '+') := by
  intro hc
  subst hc
  exact absurd h (by decide)

theorem valAux_nil (a : Nat) : valAux a [] = a := rfl

theorem valAux_cons (a : Nat) (c : Char) (cs : List Char) :
    valAux a (c :: cs) = valAux (a * 10 + charVal c) cs := rfl

theorem valAux_append (xs ys : List Char) (a : Nat) :
    valAux a (xs ++ ys) = valAux (valAux a xs) ys := by
  induction xs generalizing a with
  | nil => rfl
  | cons c cs ih =>
    rw [List.cons_append, valAux_cons, valAux_cons, ih]

theorem natCharsAux_fuel_zero (n : Nat) : natCharsAux 0 n = [] := rfl

theorem natCharsAux_zero (fuel : Nat) : natCharsAux fuel 0 = [] := by
  cases fuel with
  | zero => rfl
  | succ fuel =>
    show (if 0 = 0 then [] else natCharsAux fuel (0 / 10) ++ [digitChar (0 % 10)]) = []
    rw [if_pos rfl]

theorem natCharsAux_succ (fuel n : Nat) (h : n ≠ 0) :
    natCharsAux (fuel + 1) n = natCharsAux fuel (n / 10) ++ [digitChar (n % 10)] := by
  show (if n = 0 then [] else natCharsAux fuel (n / 10) ++ [digitChar (n % 10)]) = _
  rw [if_neg h]

theorem natCharsAux_spec (fuel : Nat) :
    ∀ n, n ≤ fuel →
      (∀ c ∈ natCharsAux fuel n, isDigitChar c = true) ∧
      (∀ a, valAux a (natCharsAux fuel n) =
        a * 10 ^ (natCharsAux fuel n).length + n) := by
  induction fuel with
  | zero =>
    intro n hn
    have h0 : n = 0 := by omega
    subst h0
    rw [natCharsAux_fuel_zero]
    refine ⟨?_, ?_⟩
    · intro c hc
      cases hc
    · intro a
      show a = a * 10 ^ (List.length ([] : List Char)) + 0
      simp
  | succ fuel ih =>
    intro n hn
    by_cases h0 : n = 0
    · subst h0
      rw [natCharsAux_zero]
      refine ⟨?_, ?_⟩
      · intro c hc
        cases hc
      · intro a
        show a = a * 10 ^ (List.length ([] : List Char)) + 0
        simp
    · have hlt : n / 10 < n := Nat.div_lt_self (Nat.pos_of_ne_zero h0) (by omega)
      have hle : n / 10 ≤ fuel := by omega
      obtain ⟨ihd, ihv⟩ := ih (n / 10) hle
      have hmod : n % 10 < 10 := Nat.mod_lt n (by omega)
      rw [natCharsAux_succ fuel n h0]
      constructor
      · intro c hc
        rw [List.mem_append, List.mem_singleton] at hc
        rcases hc with hc | hc
        · exact ihd c hc
        · subst hc
          exact isDigitChar_digitChar hmod
      · intro a
        rw [valAux_append, List.length_append, List.length_singleton]
        have h1 : valAux (valAux a (natCharsAux fuel (n / 10))) [digitChar (n % 10)]
            = (a * 10 ^ (natCharsAux fuel (n / 10)).length + n / 10) * 10 + n % 10 := by
          rw [valAux_cons, charVal_digitChar hmod, ihv, valAux_nil]
        rw [h1, pow_succ]
        have h2 : (a * 10 ^ (natCharsAux fuel (n / 10)).length + n / 10) * 10 + n % 10
            = a * (10 ^ (natCharsAux fuel (n / 10)).length * 10) + (10 * (n / 10) + n % 10) := by
          ring
        rw [h2, Nat.div_add_mod]

theorem natChars_digits {n : Nat} {c : Char} (hc : c ∈ natChars n) :
    isDigitChar c = true := by
  by_cases h0 : n = 0
  · subst h0
    have h : natChars 0 = ['0'] := rfl
    rw [h, List.mem_singleton] at hc
    subst hc
    decide
  · rw [natChars, if_neg h0] at hc
    exact (natCharsAux_spec n n (le_refl n)).1 c hc

theorem natChars_ne_nil (n : Nat) : natChars n ≠ [] := by
  by_cases h0 : n = 0
  · subst h0
    decide
  · obtain ⟨m, rfl⟩ : ∃ m, n = m + 1 := ⟨n - 1, by omega⟩
    rw [natChars, if_neg h0, natCharsAux_succ m (m + 1) h0]
    simp

theorem valAux_natChars (n : Nat) : valAux 0 (natChars n) = n := by
  by_cases h0 : n = 0
  · subst h0
    decide
  · rw [natChars, if_neg h0, (natCharsAux_spec n n (le_refl n)).2 0]
    simp

theorem parseDigits_natChars (n : Nat) (r : List Char) :
    parseDigits (natChars n ++ ',' :: r) = some (n, ',' :: r) := by
  have hall : ∀ c ∈ natChars n, isDigitChar c = true := fun _ hc => natChars_digits hc
  have hcomma : isDigitChar ',' = false := by decide
  have ht : (natChars n ++ ',' :: r).takeWhile isDigitChar = natChars n := by
    rw [List.takeWhile_append_of_pos hall, List.takeWhile_cons, hcomma]
    simp
  have hd : (natChars n ++ ',' :: r).dropWhile isDigitChar = ',' :: r := by
    rw [List.dropWhile_append_of_pos hall, List.dropWhile_cons, hcomma]
    simp
  rw [parseDigits, ht, hd]
  have hne : (natChars n).isEmpty = false := by
    cases h : natChars n with
    | nil => exact absurd h (natChars_ne_nil n)
    | cons c cs => rfl
  rw [hne]
  simp [valAux_natChars]

theorem parseIntCore_natChars (n : Nat) (r : List Char) :
    parseIntCore (natChars n ++ ',' :: r) = some ((n : Int), ',' :: r) := by
  obtain ⟨c, cs, hcc⟩ : ∃ c cs, natChars n = c :: cs := by
    cases h : natChars n with
    | nil => exact absurd h (natChars_ne_nil _)
    | cons c cs => exact ⟨c, cs, rfl⟩
  have hdigc : isDigitChar c = true := natChars_digits (by rw [hcc]; exact List.mem_cons_self c cs)
  rw [hcc, List.cons_append]
  rw [parseIntCore]
  rw [if_neg (ne_dash_of_isDigitChar hdigc), if_neg (ne_plus_of_isDigitChar hdigc)]
  rw [← List.cons_append, ← hcc, parseDigits_natChars n r]

theorem dropWhile_isWs_intChars (i : Int) (r : List Char) :
    (intChars i ++ ',' :: r).dropWhile isWs = intChars i ++ ',' :: r := by
  obtain ⟨c, cs, hcc⟩ : ∃ c cs, natChars i.natAbs = c :: cs := by
    cases h : natChars i.natAbs with
    | nil => exact absurd h (natChars_ne_nil _)
    | cons c cs => exact ⟨c, cs, rfl⟩
  have hdigc : isDigitChar c = true := natChars_digits (by rw [hcc]; exact List.mem_cons_self c cs)
  by_cases hi : i < 0
  · rw [intChars, if_pos hi, List.cons_append, List.dropWhile_cons]
    have hws : isWs '-' = false := by decide
    rw [hws]
    simp
  · rw [intChars, if_neg hi, hcc, List.cons_append, List.dropWhile_cons,
      not_isWs_of_isDigitChar hdigc]
    simp

theorem parseInt_intChars (i : Int) (r : List Char) :
    parseInt (intChars i ++ ',' :: r) = some (i, ',' :: r) := by
  rw [parseInt, dropWhile_isWs_intChars]
  by_cases hi : i < 0
  · rw [intChars, if_pos hi, List.cons_append]
    rw [parseIntCore]
    rw [if_pos rfl, parseDigits_natChars i.natAbs r]
    have habs : -((i.natAbs : Int)) = i := by omega
    show some (-((i.natAbs : Int)), ',' :: r) = some (i, ',' :: r)
    rw [habs]
  · rw [intChars, if_neg hi, parseIntCore_natChars i.natAbs r]
    have habs : ((i.natAbs : Int)) = i := by omega
    rw [habs]

theorem takeWhile_desc (d : Line) (hn : ∀ c ∈ d, (c == '\n') = false) :
    (d ++ ['\n']).takeWhile (fun c => !(c == '\n')) = d := by
  have hall : ∀ c ∈ d, (fun c => !(c == '\n')) c = true := by
    intro c hc
    simp [hn c hc]
  rw [List.takeWhile_append_of_pos hall, List.takeWhile_cons]
  simp

theorem parse3_canonLine (i st : Int) (d : Line) (hd : d ≠ [])
    (hn : ∀ c ∈ d, (c == '\n') = false) :
    parse3 (canonLine i st d) = some (i, st, d) := by
  have ht := takeWhile_desc d hn
  rw [canonLine, parse3, parseInt_intChars i (intChars st ++ ',' :: (d ++ ['\n']))]
  simp only [parseInt_intChars st (d ++ ['\n']), ht]
  simp [List.isEmpty_iff, hd]

theorem parse3_desc {l : Line} {i st : Int} {d : Line}
    (h : parse3 l = some (i, st, d)) :
    d ≠ [] ∧ ∀ c ∈ d, (c == '\n') = false := by
  rw [parse3] at h
  split at h
  · exact absurd h (by simp)
  · split at h
    · split at h
      · exact absurd h (by simp)
      · split at h
        · split at h
          · exact absurd h (by simp)
          · rename_i hne
            rw [Option.some_inj, Prod.mk.injEq, Prod.mk.injEq] at h
            obtain ⟨h1, h2, h3⟩ := h
            subst h3
            refine ⟨?_, ?_⟩
            · intro hnil
              rw [hnil] at hne
              exact hne rfl
            · intro c hc
              have := List.mem_takeWhile_imp hc
              simpa using this
        · exact absurd h (by simp)
    · exact absurd h (by simp)

/-! ### The rewrite and scan loops, characterised line by line -/

theorem stepLine_of_parse3_none {l : Line} (t : Int) (c : Bool)
    (h : parse3 l = none) : stepLine t c l = l := by
  rw [stepLine, h]

theorem stepLine_of_parse3_some {l : Line} {i st : Int} {d : Line} (t : Int) (c : Bool)
    (h : parse3 l = some (i, st, d)) :
    stepLine t c l = if i = t then canonLine i (if c then 1 else 0) d else l := by
  rw [stepLine, h]

theorem lineFound3_of_parse3_none {l : Line} (t : Int) (h : parse3 l = none) :
    lineFound3 t l = false := by
  rw [lineFound3, h]

theorem lineFound3_of_parse3_some {l : Line} {i st : Int} {d : Line} (t : Int)
    (h : parse3 l = some (i, st, d)) : lineFound3 t l = (i == t) := by
  rw [lineFound3, h]

theorem lineFoundLead_of_scanId_none {l : Line} (t : Int) (h : scanId l = none) :
    lineFoundLead t l = false := by
  rw [lineFoundLead, h]

theorem lineFoundLead_of_scanId_some {l : Line} {i : Int} (t : Int)
    (h : scanId l = some i) : lineFoundLead t l = (i == t) := by
  rw [lineFoundLead, h]

theorem modifyLines_nil (t : Int) (c : Bool) : modifyLines t c [] = ([], false) := rfl

theorem modifyLines_cons_none {l : Line} (t : Int) (c : Bool) (ls : FileContent)
    (h : parse3 l = none) :
    modifyLines t c (l :: ls) =
      (l :: (modifyLines t c ls).1, (modifyLines t c ls).2) := by
  rw [modifyLines, h]

theorem modifyLines_cons_some {l : Line} {i st : Int} {d : Line} (t : Int) (c : Bool)
    (ls : FileContent) (h : parse3 l = some (i, st, d)) :
    modifyLines t c (l :: ls) =
      if i = t then
        (canonLine i (if c then 1 else 0) d :: (modifyLines t c ls).1, true)
      else
        (l :: (modifyLines t c ls).1, (modifyLines t c ls).2) := by
  rw [modifyLines, h]

theorem modifyLines_eq (t : Int) (c : Bool) (ls : FileContent) :
    modifyLines t c ls = (ls.map (stepLine t c), ls.any (lineFound3 t)) := by
  induction ls with
  | nil => rfl
  | cons l ls ih =>
    rw [List.map_cons, List.any_cons]
    cases h : parse3 l with
    | none =>
      rw [modifyLines_cons_none t c ls h, ih, stepLine_of_parse3_none t c h,
        lineFound3_of_parse3_none t h]
      simp
    | some r =>
      obtain ⟨i, st, d⟩ := r
      rw [modifyLines_cons_some t c ls h, ih, stepLine_of_parse3_some t c h,
        lineFound3_of_parse3_some t h]
      by_cases hit : i = t
      · rw [if_pos hit]
        simp [hit]
      · rw [if_neg hit]
        simp [hit]

theorem deleteLines_nil (t : Int) : deleteLines t [] = ([], false) := rfl

theorem deleteLines_cons_none {l : Line} (t : Int) (ls : FileContent)
    (h : scanId l = none) :
    deleteLines t (l :: ls) =
      (l :: (deleteLines t ls).1, (deleteLines t ls).2) := by
  rw [deleteLines, h]

theorem deleteLines_cons_some {l : Line} {i : Int} (t : Int) (ls : FileContent)
    (h : scanId l = some i) :
    deleteLines t (l :: ls) =
      if i = t then ((deleteLines t ls).1, true)
      else (l :: (deleteLines t ls).1, (deleteLines t ls).2) := by
  rw [deleteLines, h]

theorem deleteLines_eq (t : Int) (ls : FileContent) :
    deleteLines t ls =
      (ls.filter (fun l => !(lineFoundLead t l)), ls.any (lineFoundLead t)) := by
  induction ls with
  | nil => rfl
  | cons l ls ih =>
    rw [List.filter_cons, List.any_cons]
    cases h : scanId l with
    | none =>
      rw [deleteLines_cons_none t ls h, ih, lineFoundLead_of_scanId_none t h]
      simp
    | some i =>
      rw [deleteLines_cons_some t ls h, ih, lineFoundLead_of_scanId_some t h]
      by_cases hit : i = t
      · rw [if_pos hit]
        simp [hit]
      · rw [if_neg hit]
        simp [hit]

theorem listRecords_nil : listRecords [] = [] := rfl

theorem listRecords_cons_none {l : Line} (ls : FileContent) (h : parse3 l = none) :
    listRecords (l :: ls) = listRecords ls := by
  rw [listRecords, h]

theorem listRecords_cons_some {l : Line} {r : Int × Int × Line} (ls : FileContent)
    (h : parse3 l = some r) : listRecords (l :: ls) = r :: listRecords ls := by
  rw [listRecords, h]

theorem maxIdScan_cons_none {l : Line} (ls : FileContent) (m : Int)
    (h : scanId l = none) : maxIdScan (l :: ls) m = maxIdScan ls m := by
  rw [maxIdScan, h]

theorem maxIdScan_cons_some {l : Line} {i : Int} (ls : FileContent) (m : Int)
    (h : scanId l = some i) :
    maxIdScan (l :: ls) m = maxIdScan ls (if m < i then i else m) := by
  rw [maxIdScan, h]

theorem maxIdScan_foldl (ls : FileContent) (m : Int) :
    maxIdScan ls m = (ls.filterMap scanId).foldl max m := by
  induction ls generalizing m with
  | nil => rfl
  | cons l ls ih =>
    cases h : scanId l with
    | none =>
      rw [maxIdScan_cons_none ls m h, List.filterMap_cons, h, ih]
    | some i =>
      rw [maxIdScan_cons_some ls m h, List.filterMap_cons, h, List.foldl_cons, ih]
      have hmax : (if m < i then i else m) = max m i := by
        rw [Int.max_def]
        split_ifs <;> omega
      rw [hmax]

theorem le_foldl_max (l : List Int) (m : Int) : m ≤ l.foldl max m := by
  induction l generalizing m with
  | nil => exact le_refl m
  | cons a l ih =>
    rw [List.foldl_cons]
    exact le_trans (le_max_left m a) (ih (max m a))

theorem mem_le_foldl_max (l : List Int) (m : Int) :
    ∀ i ∈ l, i ≤ l.foldl max m := by
  induction l generalizing m with
  | nil => intro i hi; cases hi
  | cons a l ih =>
    intro i hi
    rw [List.foldl_cons]
    rcases List.mem_cons.mp hi with hi | hi
    · subst hi
      exact le_trans (le_max_right m i) (le_foldl_max l (max m i))
    · exact ih (max m a) i hi

theorem foldl_max_of_all_le (l : List Int) (m : Int) (h : ∀ i ∈ l, i ≤ m) :
    l.foldl max m = m := by
  induction l with
  | nil => rfl
  | cons a l ih =>
    rw [List.foldl_cons, max_eq_left (h a (List.mem_cons_self a l))]
    exact ih (fun i hi => h i (List.mem_cons_of_mem a hi))

theorem stepLine_of_not_found {l : Line} (t : Int) (c : Bool)
    (h : lineFound3 t l = false) : stepLine t c l = l := by
  cases hp : parse3 l with
  | none => exact stepLine_of_parse3_none t c hp
  | some r =>
    obtain ⟨i, st, d⟩ := r
    rw [stepLine_of_parse3_some t c hp]
    rw [lineFound3_of_parse3_some t hp] at h
    rw [if_neg (by simpa using h)]

theorem stepLine_idem (t : Int) (c : Bool) (l : Line) :
    stepLine t c (stepLine t c l) = stepLine t c l := by
  cases h : parse3 l with
  | none => rw [stepLine_of_parse3_none t c h, stepLine_of_parse3_none t c h]
  | some r =>
    obtain ⟨i, st, d⟩ := r
    rw [stepLine_of_parse3_some t c h]
    by_cases hit : i = t
    · rw [if_pos hit]
      obtain ⟨hd, hn⟩ := parse3_desc h
      have hcanon : parse3 (canonLine i (if c then 1 else 0) d)
          = some (i, if c then 1 else 0, d) := parse3_canonLine _ _ d hd hn
      rw [stepLine_of_parse3_some t c hcanon, if_pos hit]
    · rw [if_neg hit, stepLine_of_parse3_some t c h, if_neg hit]

theorem map_stepLine_idem (t : Int) (c : Bool) (ls : FileContent) :
    (ls.map (stepLine t c)).map (stepLine t c) = ls.map (stepLine t c) := by
  induction ls with
  | nil => rfl
  | cons l ls ih =>
    rw [List.map_cons, List.map_cons, stepLine_idem, ih]

theorem map_stepLine_of_none_found (t : Int) (c : Bool) (ls : FileContent)
    (h : ∀ l ∈ ls, lineFound3 t l = false) : ls.map (stepLine t c) = ls := by
  induction ls with
  | nil => rfl
  | cons l ls ih =>
    rw [List.map_cons, stepLine_of_not_found t c (h l (List.mem_cons_self l ls)),
      ih (fun x hx => h x (List.mem_cons_of_mem l hx))]

theorem filter_of_none_found (t : Int) (ls : FileContent)
    (h : ∀ l ∈ ls, lineFoundLead t l = false) :
    ls.filter (fun l => !(lineFoundLead t l)) = ls := by
  induction ls with
  | nil => rfl
  | cons l ls ih =>
    rw [List.filter_cons]
    have hl : (!(lineFoundLead t l)) = true := by
      rw [h l (List.mem_cons_self l ls)]
      rfl
    rw [hl, if_pos rfl, ih (fun x hx => h x (List.mem_cons_of_mem l hx))]

theorem any_eq_false_of_all_false {p : Line → Bool} {ls : FileContent}
    (h : ∀ l ∈ ls, p l = false) : ls.any p = false := by
  cases hany : ls.any p with
  | false => rfl
  | true =>
    obtain ⟨x, hx, hpx⟩ := List.any_eq_true.mp hany
    rw [h x hx] at hpx
    cases hpx

theorem listRecords_filter (ls : FileContent) :
    listRecords (ls.filter (fun l => (parse3 l).isSome)) = listRecords ls := by
  induction ls with
  | nil => rfl
  | cons l ls ih =>
    rw [List.filter_cons]
    cases h : parse3 l with
    | none =>
      simp only [Option.isSome_none, Bool.false_eq_true, if_false]
      rw [ih, listRecords_cons_none ls h]
    | some r =>
      simp only [Option.isSome_some, if_true]
      rw [listRecords_cons_some (ls.filter (fun l => (parse3 l).isSome)) h,
        listRecords_cons_some ls h, ih]

/-! ### The claims -/

/-- Claim C1, counterexample: ids ARE reused after deletion.  Starting from
an empty store, Add assigns ids 1 and 2; after Delete(2) the next Add
assigns id 2 again, although 2 was previously assigned and deleted. -/
theorem C1_counterexample :
    addTask none ['a'] = some [canonLine 1 0 ['a']] ∧
    addTask (some [canonLine 1 0 ['a']]) ['b']
      = some [canonLine 1 0 ['a'], canonLine 2 0 ['b']] ∧
    deleteTask (some [canonLine 1 0 ['a'], canonLine 2 0 ['b']]) 2
      = (some [canonLine 1 0 ['a']], true) ∧
    addTask (some [canonLine 1 0 ['a']]) ['c']
      = some [canonLine 1 0 ['a'], canonLine 2 0 ['c']] := by
  decide

/-- Claim C1, amended: each newly added task's id equals one plus the
maximum (taken together with 0) of the leading integers currently parsed on
disk immediately before the add, so the new id is strictly greater than
every id currently present; ids of previously deleted tasks can however be
reused, since only the current file content enters the computation. -/
theorem C1_amended (store : Store) (d : Line) :
    addTask store d =
      some (contentOf store ++
        [canonLine (((contentOf store).filterMap scanId).foldl max 0 + 1) 0 d]) ∧
    getNextTaskId (some (contentOf store)) =
      ((contentOf store).filterMap scanId).foldl max 0 + 1 ∧
    ∀ i ∈ (contentOf store).filterMap scanId,
      i < getNextTaskId (some (contentOf store)) := by
  have hg : getNextTaskId (some (contentOf store)) =
      ((contentOf store).filterMap scanId).foldl max 0 + 1 := by
    show maxIdScan (contentOf store) 0 + 1 = _
    rw [maxIdScan_foldl]
  refine ⟨?_, hg, ?_⟩
  · rw [addTask, hg]
  · intro i hi
    rw [hg]
    have := mem_le_foldl_max ((contentOf store).filterMap scanId) 0 i hi
    omega

/-- Claim C2, counterexample: a malformed line (its status field does not
parse, so it is not a well-formed record) whose leading characters parse as
the integer 5 is REMOVED by Delete(5), not copied through. -/
theorem C2_counterexample :
    parse3 ['5', ',', 'x', '\n'] = none ∧
    deleteTask (some [['5', ',', 'x', '\n']]) 5 = (some [], true) := by
  decide

/-- Claim C2, amended: Delete(id) omits exactly the lines whose leading
characters parse (as by the %d conversion) to the integer id — whether or
not the line is a well-formed record — and preserves every other line,
including malformed ones, unchanged and in relative order; it reports
found exactly when some line's leading integer equals id. -/
theorem C2_amended (ls : FileContent) (taskId : Int) :
    (deleteTask (some ls) taskId).1
      = some (ls.filter (fun l => !(lineFoundLead taskId l))) ∧
    ((deleteTask (some ls) taskId).2 = true ↔ ∃ l ∈ ls, scanId l = some taskId) := by
  have h1 : (deleteTask (some ls) taskId).1
      = some (ls.filter (fun l => !(lineFoundLead taskId l))) := by
    show some (deleteLines taskId ls).1 = _
    rw [deleteLines_eq]
  have h2 : (deleteTask (some ls) taskId).2 = ls.any (lineFoundLead taskId) := by
    show (deleteLines taskId ls).2 = _
    rw [deleteLines_eq]
  refine ⟨h1, ?_⟩
  rw [h2, List.any_eq_true]
  constructor
  · rintro ⟨l, hl, hfound⟩
    refine ⟨l, hl, ?_⟩
    cases hs : scanId l with
    | none =>
      rw [lineFoundLead_of_scanId_none taskId hs] at hfound
      cases hfound
    | some i =>
      rw [lineFoundLead_of_scanId_some taskId hs] at hfound
      have hit : i = taskId := by simpa using hfound
      rw [hit]
  · rintro ⟨l, hl, hs⟩
    refine ⟨l, hl, ?_⟩
    rw [lineFoundLead_of_scanId_some taskId hs]
    simp

/-- Claim C3, counterexample: a line that is not a well-formed record (its
status field does not parse) still contributes its leading integer 7 to the
NextId computation: the file's only line is malformed, yet NextId is 8,
not 1. -/
theorem C3_counterexample :
    parse3 ['7', ',', 'x', '\n'] = none ∧
    getNextTaskId (some [['7', ',', 'x', '\n']]) = 8 := by
  decide

/-- Claim C3, amended: NextId ignores only the lines without a parsable
leading integer; a line that fails to decode as a full record still
contributes its leading integer to the maximum.  A file whose lines all
lack a parsable leading integer yields NextId() = 1. -/
theorem C3_amended (ls₁ ls₂ ls₃ : FileContent) (l : Line)
    (h : scanId l = none)
    (h3 : ls₃.all (fun m => (scanId m).isNone) = true) :
    getNextTaskId (some (ls₁ ++ l :: ls₂)) = getNextTaskId (some (ls₁ ++ ls₂)) ∧
    getNextTaskId (some ls₃) = 1 := by
  have hg : ∀ ls : FileContent,
      getNextTaskId (some ls) = (ls.filterMap scanId).foldl max 0 + 1 := by
    intro ls
    show maxIdScan ls 0 + 1 = _
    rw [maxIdScan_foldl]
  refine ⟨?_, ?_⟩
  · rw [hg, hg, List.filterMap_append, List.filterMap_append, List.filterMap_cons, h]
  · rw [hg]
    have hnil : ls₃.filterMap scanId = [] := by
      rw [List.filterMap_eq_nil_iff]
      intro m hm
      have hall := List.all_eq_true.mp h3 m hm
      cases hs : scanId m with
      | none => rfl
      | some i =>
        rw [hs] at hall
        exact absurd hall (by simp)
    rw [hnil]
    rfl

/-- Claim C3, witness: the amended claim at a concrete store.  The line
"x\n" has no parsable leading integer, so dropping it does not change
NextId; a store whose only line is "y\n" yields NextId 1. -/
theorem C3_witness :
    scanId ['x', '\n'] = none ∧
    ([['y', '\n']].all (fun m => (scanId m).isNone)) = true ∧
    getNextTaskId (some ([] ++ ['x', '\n'] :: [['7', ',', 'x', '\n']]))
      = getNextTaskId (some ([] ++ [['7', ',', 'x', '\n']])) ∧
    getNextTaskId (some [['y', '\n']]) = 1 :=
  ⟨by decide, by decide,
    (C3_amended [] [['7', ',', 'x', '\n']] [['y', '\n']] ['x', '\n']
      (by decide) (by decide)).1,
    (C3_amended [] [['7', ',', 'x', '\n']] [['y', '\n']] ['x', '\n']
      (by decide) (by decide)).2⟩

/-- Claim C4, counterexample: a store whose only line is the well-formed
record "-3,0,a" has the parsable id -3, yet NextId returns 1 — not
max(parsed ids) + 1 = -2, and not "1 exactly when no id is parsable". -/
theorem C4_counterexample :
    scanId ['-', '3', ',', '0', ',', 'a', '\n'] = some (-3) ∧
    parse3 ['-', '3', ',', '0', ',', 'a', '\n'] = some (-3, 0, ['a']) ∧
    getNextTaskId (some [['-', '3', ',', '0', ',', 'a', '\n']]) = 1 ∧
    (-3 : Int) + 1 ≠ 1 := by
  decide

/-- Claim C4, amended: NextId() returns one plus the maximum of 0 and all
parsed leading ids (the scan maximum starts at 0), and returns 1 exactly
when the file does not exist or no parsed id is positive — in particular
when every parsed id is negative or zero, even though ids are then
parsable. -/
theorem C4_amended (ls : FileContent) :
    getNextTaskId none = 1 ∧
    getNextTaskId (some ls) = (ls.filterMap scanId).foldl max 0 + 1 ∧
    (getNextTaskId (some ls) = 1 ↔ ∀ i ∈ ls.filterMap scanId, i ≤ 0) := by
  have hg : getNextTaskId (some ls) = (ls.filterMap scanId).foldl max 0 + 1 := by
    show maxIdScan ls 0 + 1 = _
    rw [maxIdScan_foldl]
  refine ⟨rfl, hg, ?_⟩
  rw [hg]
  constructor
  · intro h1 i hi
    have hb := mem_le_foldl_max (ls.filterMap scanId) 0 i hi
    omega
  · intro hall
    have h0 : (ls.filterMap scanId).foldl max 0 = 0 := foldl_max_of_all_le _ 0 hall
    omega

/-- Claim C5, confirmed (stated for an arbitrary position j): SetStatus
rewrites the file as the per-line map of its loop, any line at a position
that does not parse as a well-formed record with the target id is written
back byte-identically, and List yields the same records whether or not the
malformed lines are removed first (so no malformed line ever surfaces). -/
theorem C5_frame (ls : FileContent) (i : Int) (s : Bool) (j : Nat)
    (hm : lineFound3 i (ls.getD j []) = false) :
    (modifyTaskStatus (some ls) i s).1 = some (ls.map (stepLine i s)) ∧
    (ls.map (stepLine i s)).get? j = ls.get? j ∧
    listTasks (some ls) = listTasks (some (ls.filter (fun l => (parse3 l).isSome))) := by
  refine ⟨?_, ?_, ?_⟩
  · show some (modifyLines i s ls).1 = _
    rw [modifyLines_eq]
  · rw [List.get?_map]
    cases hj : ls.get? j with
    | none => rfl
    | some l =>
      have hld : ls.getD j [] = l := by
        rw [List.getD_eq_get?, hj]
        rfl
      rw [hld] at hm
      show some (stepLine i s l) = some l
      rw [stepLine_of_not_found i s hm]
  · show listRecords ls = listRecords (ls.filter (fun l => (parse3 l).isSome))
    rw [listRecords_filter]

/-- Claim C5, witness: the frame property at a concrete store with one
well-formed line (id 1) and one garbage line, targeting id 1 and position 1
(the garbage line). -/
theorem C5_witness :
    lineFound3 1 ([[' ', '1', ',', '0', ',', 'a', '\n'], ['g', 'a', 'r', 'b', '\n']].getD 1 [])
      = false ∧
    ((modifyTaskStatus (some [[' ', '1', ',', '0', ',', 'a', '\n'], ['g', 'a', 'r', 'b', '\n']]) 1 true).1
        = some ([[' ', '1', ',', '0', ',', 'a', '\n'], ['g', 'a', 'r', 'b', '\n']].map (stepLine 1 true)) ∧
      ([[' ', '1', ',', '0', ',', 'a', '\n'], ['g', 'a', 'r', 'b', '\n']].map (stepLine 1 true)).get? 1
        = [[' ', '1', ',', '0', ',', 'a', '\n'], ['g', 'a', 'r', 'b', '\n']].get? 1 ∧
      listTasks (some [[' ', '1', ',', '0', ',', 'a', '\n'], ['g', 'a', 'r', 'b', '\n']])
        = listTasks (some ([[' ', '1', ',', '0', ',', 'a', '\n'], ['g', 'a', 'r', 'b', '\n']].filter
            (fun l => (parse3 l).isSome)))) :=
  ⟨by decide,
    C5_frame [[' ', '1', ',', '0', ',', 'a', '\n'], ['g', 'a', 'r', 'b', '\n']] 1 true 1 (by decide)⟩

/-- Claim C6, confirmed: from an absent or empty store, Add("buy milk")
followed by List yields exactly one record, with status 0 displayed as
pending and description "buy milk". -/
theorem C6_roundtrip :
    listTasks (addTask none ['b', 'u', 'y', ' ', 'm', 'i', 'l', 'k'])
      = [(1, 0, ['b', 'u', 'y', ' ', 'm', 'i', 'l', 'k'])] ∧
    listDisplay (addTask none ['b', 'u', 'y', ' ', 'm', 'i', 'l', 'k'])
      = [(1, false, ['b', 'u', 'y', ' ', 'm', 'i', 'l', 'k'])] ∧
    listTasks (addTask (some []) ['b', 'u', 'y', ' ', 'm', 'i', 'l', 'k'])
      = [(1, 0, ['b', 'u', 'y', ' ', 'm', 'i', 'l', 'k'])] ∧
    listDisplay (addTask (some []) ['b', 'u', 'y', ' ', 'm', 'i', 'l', 'k'])
      = [(1, false, ['b', 'u', 'y', ' ', 'm', 'i', 'l', 'k'])] := by
  decide

/-- Claim C7, confirmed: SetStatus is idempotent on the stored content —
applying it twice with the same id and flag produces the same on-disk file
content as applying it once, for every store file and every id, both for
completing and for un-completing. -/
theorem C7_idempotent (store : Store) (taskId : Int) (complete : Bool) :
    (modifyTaskStatus ((modifyTaskStatus store taskId complete).1) taskId complete).1
      = (modifyTaskStatus store taskId complete).1 := by
  cases store with
  | none => rfl
  | some ls =>
    show some (modifyLines taskId complete (modifyLines taskId complete ls).1).1
      = some (modifyLines taskId complete ls).1
    have h1 : (modifyLines taskId complete ls).1 = ls.map (stepLine taskId complete) := by
      rw [modifyLines_eq]
    rw [h1]
    have h2 : (modifyLines taskId complete (ls.map (stepLine taskId complete))).1
        = (ls.map (stepLine taskId complete)).map (stepLine taskId complete) := by
      rw [modifyLines_eq]
    rw [h2, map_stepLine_idem]

/-- Claim C8, counterexample: id 9 is not present in any well-formed line
(the store's only line is malformed), yet Delete(9) does not report "not
found" and does not leave the content unchanged: it removes the line,
because its leading characters parse as 9. -/
theorem C8_counterexample :
    parse3 ['9', ',', 'y', '\n'] = none ∧
    deleteTask (some [['9', ',', 'y', '\n']]) 9 = (some [], true) ∧
    runDelete (some [['9', ',', 'y', '\n']]) 9 = (some [], 0) := by
  decide

/-- Claim C8, amended: not-found is non-fatal and content-preserving, with
presence judged by each operation's own parser, each half under its own
hypothesis — for every positive id that is not the parsed id of any
well-formed line, SetStatus reports not found and rewrites the file
byte-identically (the done and pending commands then exit with status 0);
independently, for every positive id that is not the parsed leading integer
of any line, Delete reports not found and rewrites byte-identically (the
delete command then exits with status 0). -/
theorem C8_amended (ls : FileContent) (taskId : Int) (c : Bool)
    (hpos : 0 < taskId) :
    (ls.all (fun l => !(lineFound3 taskId l)) = true →
      modifyTaskStatus (some ls) taskId c = (some ls, false) ∧
      runDone (some ls) taskId = (some ls, 0) ∧
      runPending (some ls) taskId = (some ls, 0)) ∧
    (ls.all (fun l => !(lineFoundLead taskId l)) = true →
      deleteTask (some ls) taskId = (some ls, false) ∧
      runDelete (some ls) taskId = (some ls, 0)) := by
  have hnotle : ¬(taskId ≤ 0) := by omega
  refine ⟨?_, ?_⟩
  · intro hmod
    have hmod' : ∀ l ∈ ls, lineFound3 taskId l = false := by
      intro l hl
      have hx := List.all_eq_true.mp hmod l hl
      simpa using hx
    have hmt : ∀ b : Bool, modifyTaskStatus (some ls) taskId b = (some ls, false) := by
      intro b
      show (some (modifyLines taskId b ls).1, (modifyLines taskId b ls).2) = (some ls, false)
      rw [modifyLines_eq, map_stepLine_of_none_found taskId b ls hmod',
        any_eq_false_of_all_false hmod']
    refine ⟨hmt c, ?_, ?_⟩
    · rw [runDone, if_neg hnotle, hmt true]
    · rw [runPending, if_neg hnotle, hmt false]
  · intro hdel
    have hdel' : ∀ l ∈ ls, lineFoundLead taskId l = false := by
      intro l hl
      have hx := List.all_eq_true.mp hdel l hl
      simpa using hx
    have hdt : deleteTask (some ls) taskId = (some ls, false) := by
      show (some (deleteLines taskId ls).1, (deleteLines taskId ls).2) = (some ls, false)
      rw [deleteLines_eq, filter_of_none_found taskId ls hdel',
        any_eq_false_of_all_false hdel']
    refine ⟨hdt, ?_⟩
    rw [runDelete, if_neg hnotle, hdt]

/-- Claim C8, witness: the SetStatus half of the amended claim at the very
store where the two parsers diverge — the only line is the malformed
"9,y\n", so id 9 occurs in no well-formed line and SetStatus(9, true)
reports not found and preserves the content byte-identically (and the done
and pending commands exit 0), even though Delete(9) would remove the
line. -/
theorem C8_witness :
    (0 : Int) < 9 ∧
    modifyTaskStatus (some [['9', ',', 'y', '\n']]) 9 true
      = (some [['9', ',', 'y', '\n']], false) ∧
    runDone (some [['9', ',', 'y', '\n']]) 9 = (some [['9', ',', 'y', '\n']], 0) ∧
    runPending (some [['9', ',', 'y', '\n']]) 9 = (some [['9', ',', 'y', '\n']], 0) :=
  ⟨by decide,
    (C8_amended [['9', ',', 'y', '\n']] 9 true (by decide)).1 (by decide)⟩

/-- Claim C9, confirmed: a line of the form "id,status,\n" with an empty
description field is malformed at the public interface — it does not parse
as a record, List yields nothing for it, and SetStatus on that line's own
id neither finds nor updates it. -/
theorem C9_empty_description (i st : Int) (c : Bool) :
    parse3 (emptyDescLine i st) = none ∧
    stepLine i c (emptyDescLine i st) = emptyDescLine i st ∧
    modifyTaskStatus (some [emptyDescLine i st]) i c
      = (some [emptyDescLine i st], false) ∧
    listTasks (some [emptyDescLine i st]) = [] := by
  have hp : parse3 (emptyDescLine i st) = none := by
    rw [emptyDescLine, parse3, parseInt_intChars i (intChars st ++ [',', '\n'])]
    simp only [parseInt_intChars st ['\n']]
    simp
  refine ⟨hp, stepLine_of_parse3_none i c hp, ?_, ?_⟩
  · show (some (modifyLines i c [emptyDescLine i st]).1,
      (modifyLines i c [emptyDescLine i st]).2) = _
    rw [modifyLines_cons_none i c [] hp, modifyLines_nil]
  · show listRecords [emptyDescLine i st] = []
    rw [listRecords_cons_none [] hp, listRecords_nil]

/-- Claim C10, confirmed: a line "id,s,description" is well-formed for ANY
integer status s, List yields its record and displays it as completed
exactly when s = 1 (pending for every other value), and SetStatus finds and
updates it. -/
theorem C10_any_status (i st : Int) (d : Line) (c : Bool)
    (hd : d ≠ []) (hn : d.all (fun ch => !(ch == '\n')) = true) :
    parse3 (canonLine i st d) = some (i, st, d) ∧
    listTasks (some [canonLine i st d]) = [(i, st, d)] ∧
    listDisplay (some [canonLine i st d]) = [(i, st == 1, d)] ∧
    ((st == 1) = true ↔ st = 1) ∧
    modifyTaskStatus (some [canonLine i st d]) i c
      = (some [canonLine i (if c then 1 else 0) d], true) := by
  have hn' : ∀ ch ∈ d, (ch == '\n') = false := by
    intro ch hch
    have hx := List.all_eq_true.mp hn ch hch
    simpa using hx
  have hp := parse3_canonLine i st d hd hn'
  have hlt : listTasks (some [canonLine i st d]) = [(i, st, d)] := by
    show listRecords [canonLine i st d] = _
    rw [listRecords_cons_some [] hp, listRecords_nil]
  refine ⟨hp, hlt, ?_, beq_iff_eq, ?_⟩
  · rw [listDisplay, hlt]
    rfl
  · show (some (modifyLines i c [canonLine i st d]).1,
      (modifyLines i c [canonLine i st d]).2) = _
    rw [modifyLines_cons_some i c [] hp, if_pos rfl, modifyLines_nil]

/-- Claim C10, witness: the any-status property at the concrete status 57
and id 2: the line parses, is listed as pending (57 is not 1), and
SetStatus(2, false) finds and rewrites it. -/
theorem C10_witness :
    (['x'] : Line) ≠ [] ∧
    (['x'] : Line).all (fun ch => !(ch == '\n')) = true ∧
    (parse3 (canonLine 2 57 ['x']) = some (2, 57, ['x']) ∧
      listTasks (some [canonLine 2 57 ['x']]) = [(2, 57, ['x'])] ∧
      listDisplay (some [canonLine 2 57 ['x']]) = [(2, (57 : Int) == 1, ['x'])] ∧
      (((57 : Int) == 1) = true ↔ (57 : Int) = 1) ∧
      modifyTaskStatus (some [canonLine 2 57 ['x']]) 2 false
        = (some [canonLine 2 (if false then 1 else 0) ['x']], true)) :=
  ⟨by decide, by decide, C10_any_status 2 57 ['x'] false (by decide) (by decide)⟩

end Tasakman
